import Mathlib

/-!
Shallow embedding of the Hytale avatar viewer core (`src/assets/avatar.js`,
class `HytaleAvatarViewer`) in Lean 4, together with theorems checking the
natural-language specification against it.

Numbers are modelled by `ℚ` (JS numbers used as exact fractions), JS arrays
by `List`, JS `Map`/`Set` by insertion-ordered association lists, and the
Three.js scene graph by a rose tree of named transform groups.  THREE's
quaternion slerp is a fixed pure function of `(q1, q2, t)`; the sampler is
parameterised by an arbitrary such function so statements hold for the real
one.  Definitions keep the source's names (leading `_` kept) where possible.
-/

namespace Avatar

/-- `const SCALE = 0.01` (avatar.js line 10): BlockyModel units to world units. -/
def SCALE : ℚ := 1 / 100

/-- `const FPS = 60` (avatar.js line 11). -/
def FPS : ℚ := 60

/-- A 3-component vector with exact rational coordinates (THREE.Vector3). -/
structure Vec3 where
  x : ℚ
  y : ℚ
  z : ℚ
deriving DecidableEq, Repr

/-- A quaternion with exact rational coordinates (THREE.Quaternion). -/
structure Quat where
  x : ℚ
  y : ℚ
  z : ℚ
  w : ℚ
deriving DecidableEq, Repr

/-- THREE.Quaternion.multiply: `this = this * q` (Hamilton product, THREE's
component formulas). Used by `_applyAnimation` via
`node.quaternion.copy(original.quaternion); node.quaternion.multiply(animQuat)`. -/
def quatMul (a b : Quat) : Quat :=
  ⟨a.x * b.w + a.w * b.x + a.y * b.z - a.z * b.y,
   a.y * b.w + a.w * b.y + a.z * b.x - a.x * b.z,
   a.z * b.w + a.w * b.z + a.x * b.y - a.y * b.x,
   a.w * b.w - a.x * b.x - a.y * b.y - a.z * b.z⟩

/-- Componentwise vector addition (THREE.Vector3.add). -/
def vadd (a b : Vec3) : Vec3 := ⟨a.x + b.x, a.y + b.y, a.z + b.z⟩

/-- Truncation toward zero, as JS `%` (fmod) truncates the quotient. -/
def ratTrunc (q : ℚ) : ℤ := if 0 ≤ q then ⌊q⌋ else ⌈q⌉

/-- JS `a % b` on numbers: remainder with the sign of the dividend,
`a - b * trunc(a / b)` (exact over ℚ; `b ≠ 0` in every use below). -/
def jsMod (a b : ℚ) : ℚ := a - b * ratTrunc (a / b)

/-- `const loopTime = ((time % duration) + duration) % duration`
(avatar.js line 329): wraps possibly negative time into `[0, duration)`. -/
def loopTimeFn (time duration : ℚ) : ℚ :=
  jsMod (jsMod time duration + duration) duration

/-- One animation keyframe: `{time, delta, interpolationType}`.  `delta` is
read as `delta.x/.y/.z` for position tracks and `delta.x/.y/.z/.w` for
orientation tracks, so it carries all four components. -/
structure Keyframe where
  time : ℚ
  dx : ℚ
  dy : ℚ
  dz : ℚ
  dw : ℚ
  interpolationType : Option String
deriving DecidableEq, Repr

/-- The record returned by `_findKeyframes`: bracketing keyframes `k1`,`k2`,
clamped fraction `t`, and the smooth-interpolation flag.  In the
single-keyframe early return the JS object has no `smooth` field
(`undefined`, falsy), modelled as `false`. -/
structure Bracket where
  k1 : Keyframe
  k2 : Keyframe
  t : ℚ
  smooth : Bool
deriving DecidableEq, Repr

/-- Stable insertion into a time-sorted list: the new element goes after all
existing elements whose `time` is ≤ its own, so `sortByTime` (a left fold of
these insertions) is a stable sort — modelling JS
`[...keyframes].sort((a, b) => a.time - b.time)` (Array.prototype.sort is
stable and the comparator orders by `time`). -/
def insertByTime (k : Keyframe) : List Keyframe → List Keyframe
  | [] => [k]
  | x :: xs => if x.time ≤ k.time then x :: insertByTime k xs else k :: x :: xs

/-- Stable sort of keyframes by `time` (see `insertByTime`). -/
def sortByTime (l : List Keyframe) : List Keyframe :=
  l.foldl (fun acc k => insertByTime k acc) []

/-- Default keyframe used only to type out-of-range list accesses that are
unreachable on the branches where they occur. -/
def kfDefault : Keyframe := ⟨0, 0, 0, 0, 0, none⟩

/-- `_findKeyframes(keyframes, time, duration)` (avatar.js lines 361-402).
Returns the bracket, paired with the contents of the caller's keyframe array
after the call: the source sorts a spread-copy (`[...keyframes].sort`), so
the array is returned unchanged — the pair makes this frame effect explicit.
The `idx1` loop (`if (sorted[i].time <= time) idx1 = i; else break`) scans a
sorted list and so computes (length of the `time ≤ t` prefix) − 1, with −1
(here: prefix length 0) meaning "before the first keyframe". -/
def _findKeyframes : List Keyframe → ℚ → ℚ → Option Bracket × List Keyframe
  | [], _, _ => (none, [])
  | [k], _, _ => (some ⟨k, k, 0, false⟩, [k])
  | kfs, time, duration =>
    let sorted := sortByTime kfs
    let pc := (sorted.takeWhile (fun k => decide (k.time ≤ time))).length
    if pc = 0 then
      -- before the first keyframe: cyclic bracket last → first, shifted by +duration
      let k1 := sorted.getLastD kfDefault
      let k2 := sorted.headD kfDefault
      let t1 := k1.time
      let t2 := k2.time + duration
      let currentTime := time + duration
      let t0 : ℚ := if t2 - t1 > 0 then (currentTime - t1) / (t2 - t1) else 0
      let t := max 0 (min 1 t0)
      (some ⟨k1, k2, t, decide (k1.interpolationType = some "smooth")⟩, kfs)
    else if pc = sorted.length then
      -- after the last keyframe: cyclic bracket last → first
      let k1 := sorted.getLastD kfDefault
      let k2 := sorted.headD kfDefault
      let timeSpan := (duration - k1.time) + k2.time
      let elapsed := time - k1.time
      let t0 : ℚ := if timeSpan > 0 then elapsed / timeSpan else 0
      let t := max 0 (min 1 t0)
      (some ⟨k1, k2, t, decide (k1.interpolationType = some "smooth")⟩, kfs)
    else
      let k1 := sorted.getD (pc - 1) kfDefault
      let k2 := sorted.getD pc kfDefault
      let timeSpan := k2.time - k1.time
      let t0 : ℚ := if timeSpan > 0 then (time - k1.time) / timeSpan else 0
      let t := max 0 (min 1 t0)
      (some ⟨k1, k2, t, decide (k1.interpolationType = some "smooth")⟩, kfs)

/-- The arguments handed to THREE's `slerpQuaternions(q1, q2, t)` by
`_interpolateQuaternion`; slerp itself is a pure function of these. -/
structure SlerpArgs where
  q1 : Quat
  q2 : Quat
  t : ℚ
deriving DecidableEq, Repr

/-- The smoothstep remap `t * t * (3 - 2 * t)` applied when the earlier
keyframe's interpolation type is "smooth". -/
def smoothstep (t : ℚ) : ℚ := t * t * (3 - 2 * t)

/-- `_interpolateQuaternion(keyframes, time, duration)` (avatar.js lines
404-419), up to the final call of `slerpQuaternions`: returns the quaternion
pair and the (possibly smoothstepped) fraction passed to slerp. -/
def _interpolateQuaternion (keyframes : List Keyframe) (time duration : ℚ) :
    Option SlerpArgs :=
  match (_findKeyframes keyframes time duration).1 with
  | none => none
  | some kf =>
    let t := if kf.smooth then smoothstep kf.t else kf.t
    some ⟨⟨kf.k1.dx, kf.k1.dy, kf.k1.dz, kf.k1.dw⟩,
          ⟨kf.k2.dx, kf.k2.dy, kf.k2.dz, kf.k2.dw⟩, t⟩

/-- `_interpolatePosition(keyframes, time, duration)` (avatar.js lines
421-436): lerp of the two deltas (`lerpVectors`) at the (possibly
smoothstepped) fraction, scaled by `SCALE`. -/
def _interpolatePosition (keyframes : List Keyframe) (time duration : ℚ) :
    Option Vec3 :=
  match (_findKeyframes keyframes time duration).1 with
  | none => none
  | some kf =>
    let t := if kf.smooth then smoothstep kf.t else kf.t
    let lx := kf.k1.dx + (kf.k2.dx - kf.k1.dx) * t
    let ly := kf.k1.dy + (kf.k2.dy - kf.k1.dy) * t
    let lz := kf.k1.dz + (kf.k2.dz - kf.k1.dz) * t
    some ⟨lx * SCALE, ly * SCALE, lz * SCALE⟩

/-! ### Scene graph

The Three.js scene graph rooted at `this.character` is a rose tree of
named groups; only the data the core reads or writes is kept: `name`,
`position`, `quaternion`, whether a visible mesh child was attached, and the
ordered child list (`THREE.Object3D.add` appends). -/

inductive SceneObj : Type where
  | node (name : String) (position : Vec3) (quaternion : Quat)
      (hasMesh : Bool) (children : List SceneObj)
deriving Repr

/-- Name of a scene-graph group (a fresh `THREE.Group` has name `""`). -/
def SceneObj.name : SceneObj → String
  | .node n _ _ _ _ => n

/-- Position of a scene-graph group. -/
def SceneObj.position : SceneObj → Vec3
  | .node _ p _ _ _ => p

/-- Quaternion of a scene-graph group. -/
def SceneObj.quaternion : SceneObj → Quat
  | .node _ _ q _ _ => q

/-- Whether a visible mesh was attached to the group. -/
def SceneObj.hasMesh : SceneObj → Bool
  | .node _ _ _ m _ => m

/-- Ordered children of a scene-graph group. -/
def SceneObj.children : SceneObj → List SceneObj
  | .node _ _ _ _ cs => cs

/-- The non-recursive data of a group, used to state that tree operations
preserve existing groups. -/
def SceneObj.headData (o : SceneObj) : String × Vec3 × Quat × Bool :=
  (o.name, o.position, o.quaternion, o.hasMesh)

instance : Inhabited SceneObj := ⟨.node "" ⟨0, 0, 0⟩ ⟨0, 0, 0, 1⟩ false []⟩

mutual

/-- First preorder depth-first match of `name` in the subtree (the object
itself first, then children left to right), as a path of child indices.
This is the search order of both `THREE.Object3D.getObjectByName` (used by
`_applyAnimation` and `_resetToOriginalPose`) and `_findBoneByName`
(avatar.js lines 802-809, a `traverse` keeping the first hit). -/
def findPathByName : SceneObj → String → Option (List ℕ)
  | .node n _ _ _ cs, name =>
    if n = name then some [] else findPathInChildren cs name 0

/-- Helper of `findPathByName`: search a child list starting at index `i`. -/
def findPathInChildren : List SceneObj → String → ℕ → Option (List ℕ)
  | [], _, _ => none
  | c :: cs, name, i =>
    match findPathByName c name with
    | some p => some (i :: p)
    | none => findPathInChildren cs name (i + 1)

end

/-- Subtree at a path of child indices. -/
def getAt : SceneObj → List ℕ → Option SceneObj
  | o, [] => some o
  | o, i :: p =>
    match o.children.get? i with
    | some c => getAt c p
    | none => none

mutual

/-- `parent.add(group)` at a path: append `child` to the children of the
node addressed by `path` (identity off valid paths). -/
def addChildAt : SceneObj → List ℕ → SceneObj → SceneObj
  | .node n pos q m cs, [], child => .node n pos q m (cs ++ [child])
  | .node n pos q m cs, i :: p, child => .node n pos q m (addChildInList cs i p child)

/-- Helper of `addChildAt`: descend into the `i`-th element of a child list. -/
def addChildInList : List SceneObj → ℕ → List ℕ → SceneObj → List SceneObj
  | [], _, _, _ => []
  | c :: cs, 0, p, child => addChildAt c p child :: cs
  | c :: cs, i + 1, p, child => c :: addChildInList cs i p child

end

mutual

/-- Overwrite the position and/or quaternion of the node at `path`
(`node.position.copy(...)` / `node.quaternion.copy(...)` followed by the
composition already folded into the written value). -/
def setTransformAt : SceneObj → List ℕ → Option Vec3 → Option Quat → SceneObj
  | .node n pos q m cs, [], np, nq => .node n (np.getD pos) (nq.getD q) m cs
  | .node n pos q m cs, i :: p, np, nq => .node n pos q m (setTransformInList cs i p np nq)

/-- Helper of `setTransformAt`: descend into the `i`-th element. -/
def setTransformInList : List SceneObj → ℕ → List ℕ → Option Vec3 → Option Quat → List SceneObj
  | [], _, _, _, _ => []
  | c :: cs, 0, p, np, nq => setTransformAt c p np nq :: cs
  | c :: cs, i + 1, p, np, nq => c :: setTransformInList cs i p np nq

end

/-! ### Animation documents and application -/

/-- Per-node animation entry `{position: Keyframe[], orientation: Keyframe[]}`;
either track may be absent (`undefined`) in the JSON document. -/
structure NodeAnim where
  orientation : Option (List Keyframe)
  position : Option (List Keyframe)
deriving Repr

/-- A `.blockyanim` document:
`{duration, holdLastKeyframe, nodeAnimations: {boneName: ...}}`
(`Object.entries` iteration order = insertion order, kept as a list). -/
structure Animation where
  duration : ℚ
  holdLastKeyframe : Bool
  nodeAnimations : List (String × NodeAnim)
deriving Repr

/-- The viewer state touched by animation application: the character scene
graph and the `originalTransforms` rest-pose cache (a JS `Map`, modelled as
an insertion-ordered association list from node name to (position, quaternion)). -/
structure AnimState where
  char : SceneObj
  origs : List (String × (Vec3 × Quat))
deriving Repr

/-- `Map.get` on the rest-pose cache. -/
def origsLookup (l : List (String × (Vec3 × Quat))) (n : String) :
    Option (Vec3 × Quat) :=
  (l.find? (fun e => e.1 == n)).map (·.2)

/-- The body of the `for (const [nodeName, nodeAnim] of ...)` loop of
`_applyAnimation` (avatar.js lines 331-358) for one entry: look the node up
by name (no match → the entry is a no-op), lazily capture its rest pose in
`originalTransforms`, then, for each present non-empty track, write
rest-pose × interpolated delta (orientation) and rest-pose + interpolated
delta (position).  `slerp` is THREE's `slerpQuaternions`, abstracted as an
arbitrary pure function. -/
def applyNodeStep (slerp : Quat → Quat → ℚ → Quat) (loopTime duration : ℚ)
    (st : AnimState) (e : String × NodeAnim) : AnimState :=
  let nodeName := e.1
  let nodeAnim := e.2
  match findPathByName st.char nodeName with
  | none => st
  | some p =>
    let node := (getAt st.char p).getD default
    let origs :=
      if (origsLookup st.origs nodeName).isSome then st.origs
      else st.origs ++ [(nodeName, (node.position, node.quaternion))]
    let original := (origsLookup origs nodeName).getD (node.position, node.quaternion)
    let char1 :=
      match nodeAnim.orientation with
      | some kfs =>
        if kfs.length > 0 then
          match _interpolateQuaternion kfs loopTime duration with
          | some args =>
            setTransformAt st.char p none (some (quatMul original.2 (slerp args.q1 args.q2 args.t)))
          | none => st.char
        else st.char
      | none => st.char
    let char2 :=
      match nodeAnim.position with
      | some kfs =>
        if kfs.length > 0 then
          match _interpolatePosition kfs loopTime duration with
          | some v => setTransformAt char1 p (some (vadd original.1 v)) none
          | none => char1
        else char1
      | none => char1
    ⟨char2, origs⟩

/-- `_applyAnimation(animation, time)` (avatar.js lines 325-359): guard
against a missing animation, wrap time into `[0, duration)`, then process
every node entry in order. -/
def _applyAnimation (slerp : Quat → Quat → ℚ → Quat) (animation : Option Animation)
    (time : ℚ) (st : AnimState) : AnimState :=
  match animation with
  | none => st
  | some a =>
    let duration := a.duration
    let loopTime := loopTimeFn time duration
    a.nodeAnimations.foldl (applyNodeStep slerp loopTime duration) st

/-- The time `_animate` (avatar.js lines 302-316) hands to `_applyAnimation`
for accumulated animation time `t`: clamped to `duration` when
`holdLastKeyframe` is set, unchanged otherwise. -/
def animateSampleTime (a : Animation) (t : ℚ) : ℚ :=
  if a.holdLastKeyframe then min t a.duration else t

/-- One frame's sampling as driven by `_animate`: apply the animation at the
(possibly hold-clamped) accumulated time. -/
def sampleFrame (slerp : Quat → Quat → ℚ → Quat) (a : Animation) (t : ℚ)
    (st : AnimState) : AnimState :=
  _applyAnimation slerp (some a) (animateSampleTime a t) st

/-- The full animation-relevant state of `_animate`: the current animation
document, the accumulated animation time, and the scene/rest-pose state. -/
structure ViewerAnimState where
  currentAnimation : Option Animation
  animationTime : ℚ
  anim : AnimState
deriving Repr

/-- The animation part of one `_animate` frame (avatar.js lines 309-316),
for a frame with wall-clock delta `deltaTime` seconds and
`animationEnabled` true: clamp the delta to 100 ms, advance time by the
animation tick rate, clamp to `duration` under `holdLastKeyframe`, apply. -/
def animateFrame (slerp : Quat → Quat → ℚ → Quat) (st : ViewerAnimState)
    (deltaTime : ℚ) : ViewerAnimState :=
  match st.currentAnimation with
  | none => st
  | some a =>
    let clampedDelta := min deltaTime (1 / 10)
    let t0 := st.animationTime + clampedDelta * FPS
    let t := if a.holdLastKeyframe then min t0 a.duration else t0
    ⟨some a, t, _applyAnimation slerp (some a) t st.anim⟩

/-! ### Properties of the time wrap -/

/-- For positive `duration`, the double-mod wrap computes the mathematical
(floor) remainder: `loopTime = duration * fract(time / duration)`. -/
theorem loopTimeFn_eq_fract {t d : ℚ} (hd : 0 < d) :
    loopTimeFn t d = d * Int.fract (t / d) := by
  have hd0 : d ≠ 0 := ne_of_gt hd
  have hq : t = d * (t / d) := by field_simp
  unfold loopTimeFn jsMod ratTrunc
  set q := t / d with hqdef
  by_cases h1 : 0 ≤ q
  · rw [if_pos h1]
    have hinner : t - d * (⌊q⌋ : ℤ) = d * Int.fract q := by
      rw [Int.fract]; nlinarith [hq]
    rw [hinner]
    have hdiv : (d * Int.fract q + d) / d = Int.fract q + 1 := by
      field_simp; ring
    rw [hdiv]
    have hpos : (0 : ℚ) ≤ Int.fract q + 1 := by
      have := Int.fract_nonneg q; linarith
    rw [if_pos hpos]
    have hfl : ⌊Int.fract q + 1⌋ = 1 := by
      rw [show (1 : ℚ) = ((1 : ℤ) : ℚ) by norm_num, Int.floor_add_int, Int.floor_fract]
      norm_num
    rw [hfl]
    push_cast
    ring
  · rw [if_neg h1]
    push_neg at h1
    by_cases h2 : Int.fract q = 0
    · have hqint : (⌈q⌉ : ℚ) = (⌊q⌋ : ℚ) := by
        have : q = (⌊q⌋ : ℚ) := by
          have := Int.fract q
          rw [Int.fract] at h2; linarith
        rw [this]; norm_num
      have hinner : t - d * (⌈q⌉ : ℤ) = 0 := by
        rw [hqint]
        have : q - (⌊q⌋ : ℚ) = 0 := by rw [Int.fract] at h2; linarith
        nlinarith [hq]
      rw [hinner, h2]
      have hdd : (0 + d) / d = (1 : ℚ) := by field_simp
      rw [hdd]
      rw [if_pos (by norm_num : (0 : ℚ) ≤ 1)]
      norm_num
    · have hflt : (⌊q⌋ : ℚ) < q := by
        have h0 := Int.fract_nonneg q
        rw [Int.fract] at h0 h2
        cases lt_or_eq_of_le h0 with
        | inl h => linarith
        | inr h => exact absurd h.symm h2
      have hceil : ⌈q⌉ = ⌊q⌋ + 1 := by
        have hle : ⌈q⌉ ≤ ⌊q⌋ + 1 := by
          apply Int.ceil_le.mpr
          push_cast
          linarith [Int.lt_floor_add_one q]
        have hge : ⌊q⌋ + 1 ≤ ⌈q⌉ := by
          have : ⌊q⌋ < ⌈q⌉ := Int.lt_ceil.mpr hflt
          omega
        omega
      have hinner : t - d * (⌈q⌉ : ℤ) = d * (Int.fract q - 1) := by
        rw [hceil, Int.fract]
        push_cast
        nlinarith [hq]
      rw [hinner]
      have hdiv : (d * (Int.fract q - 1) + d) / d = Int.fract q := by
        field_simp; ring
      rw [hdiv]
      rw [if_pos (Int.fract_nonneg q), Int.floor_fract]
      push_cast
      ring

/-- Shifting time by an integer multiple of a positive duration leaves the
wrapped loop time unchanged. -/
theorem loopTimeFn_add_int_mul {t d : ℚ} (k : ℤ) (hd : 0 < d) :
    loopTimeFn (t + k * d) d = loopTimeFn t d := by
  rw [loopTimeFn_eq_fract hd, loopTimeFn_eq_fract hd]
  congr 1
  rw [add_div, mul_div_assoc, div_self (ne_of_gt hd), mul_one, Int.fract_add_int]

/-! ### Stability lemmas for animation application -/

/-- Overwriting a transform at a path changes no group's name, so name
search is unaffected. -/
theorem findPath_setTransformAt :
    ∀ (p : List ℕ) (c : SceneObj) (np : Option Vec3) (nq : Option Quat) (n : String),
      findPathByName (setTransformAt c p np nq) n = findPathByName c n := by
  intro p
  induction p with
  | nil =>
    intro c np nq n
    cases c with
    | node nm pos q m cs => simp [setTransformAt, findPathByName]
  | cons i p ih =>
    intro c np nq n
    cases c with
    | node nm pos q m cs =>
      simp only [setTransformAt, findPathByName]
      have aux : ∀ (cs : List SceneObj) (i j : ℕ),
          findPathInChildren (setTransformInList cs i p np nq) n j
            = findPathInChildren cs n j := by
        intro cs
        induction cs with
        | nil => intro i j; cases i <;> rfl
        | cons c0 cs0 ihcs =>
          intro i j
          cases i with
          | zero => simp [setTransformInList, findPathInChildren, ih]
          | succ i' => simp [setTransformInList, findPathInChildren, ihcs]
      rw [aux cs i 0]

/-- One node-entry step of `_applyAnimation` never changes any group's name,
so subsequent name lookups are unaffected. -/
theorem findPath_applyNodeStep (slerp : Quat → Quat → ℚ → Quat) (lt dur : ℚ)
    (st : AnimState) (e : String × NodeAnim) (n : String) :
    findPathByName (applyNodeStep slerp lt dur st e).char n = findPathByName st.char n := by
  cases hfp : findPathByName st.char e.1 with
  | none => simp [applyNodeStep, hfp]
  | some p =>
    simp only [applyNodeStep, hfp]
    repeat' split
    all_goals simp [findPath_setTransformAt]

/-- Index view of `setTransformInList`: only the `i`-th element changes. -/
theorem setTransformInList_get (np : Option Vec3) (nq : Option Quat) (p : List ℕ) :
    ∀ (cs : List SceneObj) (i j : ℕ),
      (setTransformInList cs i p np nq).get? j
        = if j = i then (cs.get? j).map (fun c => setTransformAt c p np nq)
          else cs.get? j := by
  intro cs
  induction cs with
  | nil =>
    intro i j
    cases i <;> simp [setTransformInList]
  | cons c cs ih =>
    intro i j
    cases i with
    | zero =>
      cases j with
      | zero => simp [setTransformInList]
      | succ j => simp [setTransformInList]
    | succ i =>
      cases j with
      | zero => simp [setTransformInList]
      | succ j => simpa [setTransformInList] using ih i j

/-- A position-only transform write changes no quaternion anywhere in the
tree. -/
theorem getAt_setTransformAt_quat :
    ∀ (qp : List ℕ) (c : SceneObj) (p : List ℕ) (np : Option Vec3),
      (getAt (setTransformAt c p np none) qp).map SceneObj.quaternion
        = (getAt c qp).map SceneObj.quaternion := by
  intro qp
  induction qp with
  | nil =>
    intro c p np
    cases c with
    | node nm pos qu m cs => cases p <;> rfl
  | cons j qp' ih =>
    intro c p np
    cases c with
    | node nm pos qu m cs =>
      cases p with
      | nil => rfl
      | cons i p' =>
        simp only [setTransformAt, getAt, SceneObj.children]
        rw [setTransformInList_get]
        by_cases hji : j = i
        · subst hji
          cases hj : cs.get? j with
          | none => simp
          | some cj => simpa using ih cj p' np
        · rw [if_neg hji]

/-- A quaternion-only transform write changes no position anywhere in the
tree. -/
theorem getAt_setTransformAt_pos :
    ∀ (qp : List ℕ) (c : SceneObj) (p : List ℕ) (nq : Option Quat),
      (getAt (setTransformAt c p none nq) qp).map SceneObj.position
        = (getAt c qp).map SceneObj.position := by
  intro qp
  induction qp with
  | nil =>
    intro c p nq
    cases c with
    | node nm pos qu m cs => cases p <;> rfl
  | cons j qp' ih =>
    intro c p nq
    cases c with
    | node nm pos qu m cs =>
      cases p with
      | nil => rfl
      | cons i p' =>
        simp only [setTransformAt, getAt, SceneObj.children]
        rw [setTransformInList_get]
        by_cases hji : j = i
        · subst hji
          cases hj : cs.get? j with
          | none => simp
          | some cj => simpa using ih cj p' nq
        · rw [if_neg hji]

/-- Name lookups are unchanged by any prefix of `_applyAnimation`'s node
loop, since each step only rewrites transforms. -/
theorem findPath_foldl_applyNodeStep (slerp : Quat → Quat → ℚ → Quat) (lt dur : ℚ)
    (es : List (String × NodeAnim)) :
    ∀ (st : AnimState) (n : String),
      findPathByName (es.foldl (applyNodeStep slerp lt dur) st).char n
        = findPathByName st.char n := by
  induction es with
  | nil => intro st n; rfl
  | cons e es ih =>
    intro st n
    rw [List.foldl_cons, ih, findPath_applyNodeStep]

/-- C3: the frame-sampled state is periodic in the accumulated time: without
`holdLastKeyframe`, sampling at `t + k·duration` equals sampling at `t` for
every integer `k`; with `holdLastKeyframe` set, sampling at any `t ≥ duration`
equals sampling at `duration` (the pose freezes at the track's final time). -/
theorem c3_periodicity_and_hold (slerp : Quat → Quat → ℚ → Quat) (a : Animation)
    (st : AnimState) (hd : 0 < a.duration) :
    (a.holdLastKeyframe = false →
      ∀ (t : ℚ) (k : ℤ),
        sampleFrame slerp a (t + k * a.duration) st = sampleFrame slerp a t st)
    ∧ (a.holdLastKeyframe = true →
      ∀ t : ℚ, a.duration ≤ t →
        sampleFrame slerp a t st = sampleFrame slerp a a.duration st) := by
  constructor
  · intro hh t k
    unfold sampleFrame _applyAnimation animateSampleTime
    rw [hh]
    simp only [Bool.false_eq_true, if_false]
    rw [loopTimeFn_add_int_mul k hd]
  · intro hh t ht
    unfold sampleFrame animateSampleTime
    rw [hh]
    simp only [if_true]
    rw [min_eq_right ht, min_self]

/-- Witness for C3: a concrete animation of duration 10. -/
theorem c3_witness :
    (0 : ℚ) < 10 ∧
    ((false = false →
        ∀ (t : ℚ) (k : ℤ),
          sampleFrame (fun q _ _ => q) ⟨10, false, []⟩ (t + (k : ℚ) * 10) ⟨default, []⟩
            = sampleFrame (fun q _ _ => q) ⟨10, false, []⟩ t ⟨default, []⟩)
      ∧ (false = true →
        ∀ t : ℚ, (10 : ℚ) ≤ t →
          sampleFrame (fun q _ _ => q) ⟨10, false, []⟩ t ⟨default, []⟩
            = sampleFrame (fun q _ _ => q) ⟨10, false, []⟩ 10 ⟨default, []⟩)) :=
  ⟨by decide, c3_periodicity_and_hold (fun q _ _ => q) ⟨10, false, []⟩ ⟨default, []⟩ (by decide)⟩

/-- C4: for a track of duration 10 with keyframes at times 0 and 5, sampling
at t = 7.5 brackets cyclically from the time-5 keyframe back to the time-0
keyframe with interpolation fraction exactly 1/2 (post-wrap span 5, elapsed
2.5). -/
theorem c4_wrap_bracket :
    (_findKeyframes
        [⟨0, 0, 0, 0, 1, some "linear"⟩, ⟨5, 0, 0, 0, 1, some "linear"⟩]
        (15 / 2) 10).1
      = some ⟨⟨5, 0, 0, 0, 1, some "linear"⟩, ⟨0, 0, 0, 0, 1, some "linear"⟩,
              1 / 2, false⟩ := by
  norm_num [_findKeyframes, sortByTime, insertByTime, List.takeWhile, kfDefault,
    List.getLastD, List.headD, List.getD]
  decide

/-- C9: animation application degrades entry-by-entry instead of aborting:
an entry whose name matches no scene object is a complete no-op on the
state; an absent or zero-length orientation track leaves every quaternion
in the scene unchanged, an absent or zero-length position track leaves
every position unchanged, and when both tracks are degenerate the scene
graph is untouched; finally a no-match entry can be dropped from the middle
of the document without changing the result, so all remaining entries are
still processed. -/
theorem c9_degenerate_entries (slerp : Quat → Quat → ℚ → Quat) (lt dur : ℚ)
    (st : AnimState) (name : String) (na : NodeAnim)
    (es1 es2 : List (String × NodeAnim)) :
    (findPathByName st.char name = none →
       applyNodeStep slerp lt dur st (name, na) = st)
    ∧ ((na.orientation = none ∨ na.orientation = some []) →
       ∀ qp : List ℕ,
         (getAt (applyNodeStep slerp lt dur st (name, na)).char qp).map SceneObj.quaternion
           = (getAt st.char qp).map SceneObj.quaternion)
    ∧ ((na.position = none ∨ na.position = some []) →
       ∀ qp : List ℕ,
         (getAt (applyNodeStep slerp lt dur st (name, na)).char qp).map SceneObj.position
           = (getAt st.char qp).map SceneObj.position)
    ∧ ((na.orientation = none ∨ na.orientation = some []) →
       (na.position = none ∨ na.position = some []) →
       (applyNodeStep slerp lt dur st (name, na)).char = st.char)
    ∧ (findPathByName st.char name = none →
       (es1 ++ (name, na) :: es2).foldl (applyNodeStep slerp lt dur) st
         = (es1 ++ es2).foldl (applyNodeStep slerp lt dur) st) := by
  have hstep_none : ∀ (s : AnimState), findPathByName s.char name = none →
      applyNodeStep slerp lt dur s (name, na) = s := by
    intro s hs
    simp [applyNodeStep, hs]
  refine ⟨hstep_none st, ?_, ?_, ?_, ?_⟩
  · intro ho qp
    cases hfp : findPathByName st.char name with
    | none => rw [hstep_none st hfp]
    | some p =>
      simp only [applyNodeStep, hfp]
      rcases ho with ho | ho <;> simp only [ho] <;>
        (repeat' split) <;>
        solve
          | rfl
          | simp [getAt_setTransformAt_quat]
          | simp_all [_interpolateQuaternion, _findKeyframes]
  · intro hp qp
    cases hfp : findPathByName st.char name with
    | none => rw [hstep_none st hfp]
    | some p =>
      simp only [applyNodeStep, hfp]
      rcases hp with hp | hp <;> simp only [hp] <;>
        (repeat' split) <;>
        solve
          | rfl
          | simp [getAt_setTransformAt_pos]
          | simp_all [_interpolatePosition, _findKeyframes]
  · intro ho hp
    cases hfp : findPathByName st.char name with
    | none => rw [hstep_none st hfp]
    | some p =>
      simp only [applyNodeStep, hfp]
      rcases ho with ho | ho <;> rcases hp with hp | hp <;> simp [ho, hp]
  · intro h
    rw [List.foldl_append, List.foldl_append, List.foldl_cons]
    rw [hstep_none _ (by rw [findPath_foldl_applyNodeStep]; exact h)]

/-- Witness for C9: a one-group scene, an entry naming a missing node. -/
theorem c9_witness :
    applyNodeStep (fun q _ _ => q) 0 10
        ⟨SceneObj.node "Root" ⟨0, 0, 0⟩ ⟨0, 0, 0, 1⟩ false [], []⟩
        ("Gone", ⟨none, some []⟩)
      = ⟨SceneObj.node "Root" ⟨0, 0, 0⟩ ⟨0, 0, 0, 1⟩ false [], []⟩ :=
  (c9_degenerate_entries (fun q _ _ => q) 0 10
      ⟨SceneObj.node "Root" ⟨0, 0, 0⟩ ⟨0, 0, 0, 1⟩ false [], []⟩ "Gone" ⟨none, some []⟩
      [] []).1
    (by simp [findPathByName, findPathInChildren])

/-- C10: sampling never mutates the animation document: `_findKeyframes`
hands back its input keyframe array unchanged (it sorts a spread-copy), and
any number of `_animate` frames leaves the loaded animation document — all
its tracks and keyframes — identical. -/
theorem c10_document_immutable :
    (∀ (kfs : List Keyframe) (t d : ℚ), (_findKeyframes kfs t d).2 = kfs)
    ∧ (∀ (slerp : Quat → Quat → ℚ → Quat) (st : ViewerAnimState) (ds : List ℚ),
        (ds.foldl (animateFrame slerp) st).currentAnimation = st.currentAnimation) := by
  constructor
  · intro kfs t d
    match kfs with
    | [] => rfl
    | [k] => rfl
    | a :: b :: rest =>
      simp only [_findKeyframes]
      repeat' split
      all_goals rfl
  · intro slerp st ds
    induction ds generalizing st with
    | nil => rfl
    | cons d ds ih =>
      rw [List.foldl_cons, ih]
      unfold animateFrame
      cases hc : st.currentAnimation <;> simp [hc]

/-! ### Hidden/offset body-part sets and the two load paths

`data.parts?.slot` is truthy iff the avatar descriptor carries that part, so
`_determineHiddenParts` only reads presence flags of the six slots it
mentions. -/

/-- Presence of the equipped-part slots read by `_determineHiddenParts`. -/
structure PartsFlags where
  pants : Bool
  overpants : Bool
  overtop : Bool
  undertop : Bool
  shoes : Bool
  haircut : Bool
deriving DecidableEq, Repr

/-- The avatar descriptor fields relevant to the collections:
`{skinTone, bodyType, parts}`. -/
structure AvatarData where
  skinTone : Option String
  bodyType : Option String
  parts : PartsFlags
deriving DecidableEq, Repr

/-- The three mutable collections of one viewer instance:
`hiddenBodyParts` and `polygonOffsetParts` (JS `Set`s, insertion-ordered,
duplicate-free) and `originalTransforms` (JS `Map`). -/
structure Collections where
  hiddenBodyParts : List String
  polygonOffsetParts : List String
  originalTransforms : List (String × (Vec3 × Quat))
deriving DecidableEq, Repr

/-- `Set.prototype.add`: append unless already present. -/
def setAdd (l : List String) (s : String) : List String :=
  if s ∈ l then l else l ++ [s]

/-- Membership is preserved by `setAdd`. -/
theorem mem_setAdd_of_mem {l : List String} {s x : String} (h : x ∈ l) :
    x ∈ setAdd l s := by
  unfold setAdd
  split
  · exact h
  · exact List.mem_append_left _ h

/-- First `if` block of `_determineHiddenParts` (avatar.js lines 255-261):
`data.parts?.pants || data.parts?.overpants` hides pelvis, thighs, calves. -/
def hidePantsBlock (c : Collections) (data : AvatarData) : Collections :=
  if data.parts.pants || data.parts.overpants then
    { c with hiddenBodyParts :=
        setAdd (setAdd (setAdd (setAdd (setAdd c.hiddenBodyParts
          "Pelvis") "L-Thigh") "R-Thigh") "L-Calf") "R-Calf" }
  else c

/-- Second `if` block (avatar.js lines 262-269): a top hides belly/chest and
marks the arm segments for polygon offset. -/
def hideTopBlock (c : Collections) (data : AvatarData) : Collections :=
  if data.parts.overtop || data.parts.undertop then
    { c with
        hiddenBodyParts := setAdd (setAdd c.hiddenBodyParts "Belly") "Chest",
        polygonOffsetParts := setAdd (setAdd (setAdd (setAdd c.polygonOffsetParts
          "L-Arm") "R-Arm") "L-Forearm") "R-Forearm" }
  else c

/-- Third `if` block (avatar.js lines 270-273): shoes hide the feet. -/
def hideShoesBlock (c : Collections) (data : AvatarData) : Collections :=
  if data.parts.shoes then
    { c with hiddenBodyParts := setAdd (setAdd c.hiddenBodyParts "L-Foot") "R-Foot" }
  else c

/-- Fourth `if` block (avatar.js lines 274-277): a haircut hides head
top/hair base. -/
def hideHairBlock (c : Collections) (data : AvatarData) : Collections :=
  if data.parts.haircut then
    { c with hiddenBodyParts := setAdd (setAdd c.hiddenBodyParts "HeadTop") "HairBase" }
  else c

/-- `_determineHiddenParts(data)` (avatar.js lines 254-278): the four `if`
blocks run in source order; each only ever adds fixed name sets to the
hidden/offset collections. -/
def _determineHiddenParts (c : Collections) (data : AvatarData) : Collections :=
  hideHairBlock (hideShoesBlock (hideTopBlock (hidePantsBlock c data) data) data) data

/-- The pants block only adds to the sets and ignores the rest-pose cache. -/
theorem hidePantsBlock_mono (c : Collections) (d : AvatarData) :
    c.hiddenBodyParts ⊆ (hidePantsBlock c d).hiddenBodyParts
    ∧ c.polygonOffsetParts ⊆ (hidePantsBlock c d).polygonOffsetParts
    ∧ (hidePantsBlock c d).originalTransforms = c.originalTransforms := by
  unfold hidePantsBlock
  split <;>
    exact ⟨fun x hx => by repeat first | apply mem_setAdd_of_mem | exact hx,
           fun x hx => by repeat first | apply mem_setAdd_of_mem | exact hx,
           rfl⟩

/-- The top block only adds to the sets and ignores the rest-pose cache. -/
theorem hideTopBlock_mono (c : Collections) (d : AvatarData) :
    c.hiddenBodyParts ⊆ (hideTopBlock c d).hiddenBodyParts
    ∧ c.polygonOffsetParts ⊆ (hideTopBlock c d).polygonOffsetParts
    ∧ (hideTopBlock c d).originalTransforms = c.originalTransforms := by
  unfold hideTopBlock
  split <;>
    exact ⟨fun x hx => by repeat first | apply mem_setAdd_of_mem | exact hx,
           fun x hx => by repeat first | apply mem_setAdd_of_mem | exact hx,
           rfl⟩

/-- The shoes block only adds to the sets and ignores the rest-pose cache. -/
theorem hideShoesBlock_mono (c : Collections) (d : AvatarData) :
    c.hiddenBodyParts ⊆ (hideShoesBlock c d).hiddenBodyParts
    ∧ c.polygonOffsetParts ⊆ (hideShoesBlock c d).polygonOffsetParts
    ∧ (hideShoesBlock c d).originalTransforms = c.originalTransforms := by
  unfold hideShoesBlock
  split <;>
    exact ⟨fun x hx => by repeat first | apply mem_setAdd_of_mem | exact hx,
           fun x hx => by repeat first | apply mem_setAdd_of_mem | exact hx,
           rfl⟩

/-- The haircut block only adds to the sets and ignores the rest-pose cache. -/
theorem hideHairBlock_mono (c : Collections) (d : AvatarData) :
    c.hiddenBodyParts ⊆ (hideHairBlock c d).hiddenBodyParts
    ∧ c.polygonOffsetParts ⊆ (hideHairBlock c d).polygonOffsetParts
    ∧ (hideHairBlock c d).originalTransforms = c.originalTransforms := by
  unfold hideHairBlock
  split <;>
    exact ⟨fun x hx => by repeat first | apply mem_setAdd_of_mem | exact hx,
           fun x hx => by repeat first | apply mem_setAdd_of_mem | exact hx,
           rfl⟩

/-- Effect of `loadAvatar(uuid)` (avatar.js lines 147-174) on the three
collections, for the avatar data the fetch resolved to: the method runs
`_determineHiddenParts` directly on the previous contents — no statement in
`loadAvatar` or `_buildCharacter` clears any of the three collections. -/
def loadAvatarCollections (c : Collections) (data : AvatarData) : Collections :=
  _determineHiddenParts c data

/-- JS `value || defaultValue` on an optional string (empty string is falsy). -/
def strOrDefault (s : Option String) (d : String) : String :=
  match s with
  | some v => if v = "" then d else v
  | none => d

/-- Effect of `loadFromSkinData(skinData)` (avatar.js lines 177-207) on the
three collections: all three are cleared, then the rebuilt model data
(`parts` is set to `{}` pending server-side resolution) is passed to
`_determineHiddenParts`. -/
def loadFromSkinDataCollections (_c : Collections)
    (skinTone bodyType : Option String) : Collections :=
  let cleared : Collections := ⟨[], [], []⟩
  let modelData : AvatarData :=
    ⟨some (strOrDefault skinTone "01"), some (strOrDefault bodyType "Regular"),
     ⟨false, false, false, false, false, false⟩⟩
  _determineHiddenParts cleared modelData

/-- `_determineHiddenParts` only ever adds to the hidden/offset sets and
never touches the rest-pose cache. -/
theorem determineHiddenParts_mono (c : Collections) (d : AvatarData) :
    c.hiddenBodyParts ⊆ (_determineHiddenParts c d).hiddenBodyParts
    ∧ c.polygonOffsetParts ⊆ (_determineHiddenParts c d).polygonOffsetParts
    ∧ (_determineHiddenParts c d).originalTransforms = c.originalTransforms := by
  unfold _determineHiddenParts
  obtain ⟨h1, h2, h3⟩ := hidePantsBlock_mono c d
  obtain ⟨h4, h5, h6⟩ := hideTopBlock_mono (hidePantsBlock c d) d
  obtain ⟨h7, h8, h9⟩ := hideShoesBlock_mono (hideTopBlock (hidePantsBlock c d) d) d
  obtain ⟨h10, h11, h12⟩ :=
    hideHairBlock_mono (hideShoesBlock (hideTopBlock (hidePantsBlock c d) d) d) d
  exact ⟨h1.trans (h4.trans (h7.trans h10)),
         h2.trans (h5.trans (h8.trans h11)),
         by rw [h12, h9, h6, h3]⟩

/-- C1 counterexample: on the `loadAvatar` path the collections are not
rebuilt wholesale — after loading an avatar with pants and then one with no
parts at all, "Pelvis" is still hidden, although loading the second avatar
alone leaves it visible. -/
theorem c1_counterexample :
    "Pelvis" ∈ (loadAvatarCollections
        (loadAvatarCollections ⟨[], [], []⟩
          ⟨some "01", some "Regular", ⟨true, false, false, false, false, false⟩⟩)
        ⟨some "01", some "Regular", ⟨false, false, false, false, false, false⟩⟩).hiddenBodyParts
    ∧ "Pelvis" ∉ (loadAvatarCollections ⟨[], [], []⟩
        ⟨some "01", some "Regular",
         ⟨false, false, false, false, false, false⟩⟩).hiddenBodyParts := by
  decide

/-- C1 as amended: `loadFromSkinData` does clear and rebuild the three
collections wholesale — its result is independent of the previous contents;
`loadAvatar`, by contrast, never clears them: every previously hidden or
offset name survives the reload, and the rest-pose cache is left as it was. -/
theorem c1_amended :
    (∀ (c c' : Collections) (st bt : Option String),
       loadFromSkinDataCollections c st bt = loadFromSkinDataCollections c' st bt)
    ∧ (∀ (c : Collections) (d : AvatarData),
       c.hiddenBodyParts ⊆ (loadAvatarCollections c d).hiddenBodyParts
       ∧ c.polygonOffsetParts ⊆ (loadAvatarCollections c d).polygonOffsetParts
       ∧ (loadAvatarCollections c d).originalTransforms = c.originalTransforms) := by
  exact ⟨fun _ _ _ _ => rfl, fun c d => determineHiddenParts_mono c d⟩

/-- The five names occluded by an equipped pants/overpants slot. -/
def pantsHiddenNames : List String := ["Pelvis", "L-Thigh", "R-Thigh", "L-Calf", "R-Calf"]

/-- C6: a pants or overpants slot hides exactly Pelvis, the thighs and the
calves — all five are hidden when either slot is equipped, on a fresh build
the pants branch alone produces exactly that list, and a fresh build with
neither slot equipped hides none of the five regardless of the other slots. -/
theorem c6_pants_hidden_set (p : PartsFlags) :
    ((p.pants || p.overpants) = true →
       ∀ s ∈ pantsHiddenNames,
         s ∈ (_determineHiddenParts ⟨[], [], []⟩ ⟨none, none, p⟩).hiddenBodyParts)
    ∧ (p.pants = false → p.overpants = false →
       ∀ s ∈ pantsHiddenNames,
         s ∉ (_determineHiddenParts ⟨[], [], []⟩ ⟨none, none, p⟩).hiddenBodyParts)
    ∧ (_determineHiddenParts ⟨[], [], []⟩
         ⟨none, none, ⟨true, false, false, false, false, false⟩⟩).hiddenBodyParts
       = pantsHiddenNames := by
  obtain ⟨p1, p2, p3, p4, p5, p6⟩ := p
  cases p1 <;> cases p2 <;> cases p3 <;> cases p4 <;> cases p5 <;> cases p6 <;> decide

/-- Witness for C6 at the pants-only avatar. -/
theorem c6_witness :
    "Pelvis" ∈ (_determineHiddenParts ⟨[], [], []⟩
        ⟨none, none, ⟨true, false, false, false, false, false⟩⟩).hiddenBodyParts :=
  (c6_pants_hidden_set ⟨true, false, false, false, false, false⟩).1 (by decide)
    "Pelvis" (by decide)

/-! ### Texture synthesis and the texture cache

Images are RGBA byte grids; a pixel access `data[i] = v` on a
`Uint8ClampedArray` stores 0 for `undefined`/`NaN` inputs, which is made
explicit where the source can produce them. -/

/-- One RGBA pixel (byte values). -/
structure Pixel where
  r : ℕ
  g : ℕ
  b : ℕ
  a : ℕ
deriving DecidableEq, Repr

/-- A decoded image: dimensions plus row-major pixels. -/
structure Image where
  width : ℕ
  height : ℕ
  pixels : List Pixel
deriving DecidableEq, Repr

/-- `getImageData` view of an image: `width` (as a JS number) and the flat
RGBA byte array `data`. -/
structure GradientData where
  width : ℤ
  data : List ℕ
deriving DecidableEq, Repr

/-- The flat RGBA byte array of an image, as `getImageData().data`. -/
def imageDataArray (img : Image) : List ℕ :=
  (img.pixels.map (fun p => [p.r, p.g, p.b, p.a])).flatten

/-- `arr[i]` read on a byte array whose value is then stored into a
`Uint8ClampedArray` slot: out-of-range indices (negative or past the end)
read `undefined`, which the clamped store turns into 0. -/
def jsArrGet (l : List ℕ) (i : ℤ) : ℕ :=
  if i < 0 then 0 else l.getD i.toNat 0

/-- The JS values `_parseColor` can receive: a number, a string, an array,
or anything else (`null`/`undefined`/objects). -/
inductive JSColor : Type where
  | num (n : ℤ)
  | str (s : String)
  | arr (l : List JSColor)
  | other
deriving Repr

/-- Parsed color channels; `none` models `NaN` (from `parseInt` of a
non-hex slice), which a clamped store later turns into 0. -/
structure RGBo where
  r : Option ℕ
  g : Option ℕ
  b : Option ℕ
deriving DecidableEq, Repr

/-- Value of one hex digit, `none` for a non-digit. -/
def hexDigit (c : Char) : Option ℕ :=
  if '0' ≤ c ∧ c ≤ '9' then some (c.toNat - '0'.toNat)
  else if 'a' ≤ c ∧ c ≤ 'f' then some (c.toNat - 'a'.toNat + 10)
  else if 'A' ≤ c ∧ c ≤ 'F' then some (c.toNat - 'A'.toNat + 10)
  else none

/-- JS `parseInt(s, 16)` as used on two-character slices of a `#rrggbb`
literal: value of the longest hex-digit prefix, `none` (NaN) when it is
empty.  (Whitespace/sign/`0x` handling of full `parseInt` never triggers on
these slices.) -/
def parseIntHex (s : String) : Option ℕ :=
  let ds := s.toList.takeWhile (fun c => (hexDigit c).isSome)
  if ds.isEmpty then none
  else some (ds.foldl (fun a c => a * 16 + (hexDigit c).getD 0) 0)

/-- JS `substr(start, len)` on a string of plain characters (code-unit
slicing on the char list). -/
def substrJS (s : String) (start len : ℕ) : String :=
  ⟨(s.toList.drop start).take len⟩

/-- `charsStartsWith s p`: `p` is a prefix of `s` (char-list form). -/
def charsStartsWith : List Char → List Char → Bool
  | _, [] => true
  | [], _ :: _ => false
  | c :: cs, p :: ps => c = p && charsStartsWith cs ps

/-- JS `String.prototype.startsWith` (code-unit prefix test). -/
def startsWithJS (s pat : String) : Bool := charsStartsWith s.toList pat.toList

/-- JS `ToInt32`. -/
def toInt32 (n : ℤ) : ℤ := (n + 2 ^ 31) % 2 ^ 32 - 2 ^ 31

/-- `(color >> k) & 255` on an integral JS number (arithmetic shift of the
32-bit value, then mask). -/
def shiftAnd255 (n : ℤ) (k : ℕ) : ℕ := ((toInt32 n).fdiv (2 ^ k) % 256).toNat

/-- `_parseColor(color)` (avatar.js lines 619-641).  Every case returns an
object: numbers split into byte channels, `#`-strings parse hex pairs,
arrays recurse on their first element, and everything else — including a
string without `#`, an empty array, `null` and `undefined` — falls through
to the default `{r: 200, g: 200, b: 200}`. -/
def _parseColor : JSColor → RGBo
  | .num n => ⟨some (shiftAnd255 n 16), some (shiftAnd255 n 8), some (shiftAnd255 n 0)⟩
  | .str s =>
    if startsWithJS s "#" then
      let hex : String := ⟨s.toList.drop 1⟩
      ⟨parseIntHex (substrJS hex 0 2), parseIntHex (substrJS hex 2 2),
       parseIntHex (substrJS hex 4 2)⟩
    else ⟨some 200, some 200, some 200⟩
  | .arr (c :: _) => _parseColor c
  | .arr [] => ⟨some 200, some 200, some 200⟩
  | .other => ⟨some 200, some 200, some 200⟩

/-- JS `Math.round` for the nonnegative values produced here: round half
away from zero is `⌊q + 1/2⌋` on nonnegative `q`. -/
def jsRound (q : ℚ) : ℤ := ⌊q + 1 / 2⌋

/-- One channel of the flat-color tint:
`Math.round(Math.min(255, channel * t * 2))`, stored clamped (`NaN → 0` for
a NaN channel). -/
def tintChannel (c : Option ℕ) (t : ℚ) : ℕ :=
  match c with
  | some v => (jsRound (min 255 ((v : ℚ) * t * 2))).toNat
  | none => 0

/-- The per-pixel body of `_createTintedTexture`'s loop (avatar.js lines
532-565): pixels with zero alpha or with distinct RGB channels are left
untouched; grayscale marker pixels take their RGB from the gradient column
`min(grey, width − 1)` when gradient data is present, else from the
doubled-brightness flat-color scale.  The second argument is the `color`
local; `_parseColor` always returns a truthy object, so the final grey
pass-through arm (`color` null) is kept only to mirror the source text. -/
def tintPixel (gradientData : Option GradientData) (color : Option RGBo)
    (p : Pixel) : Pixel :=
  if 0 < p.a then
    if p.r = p.g ∧ p.g = p.b then
      let grey := p.r
      match gradientData, color with
      | some gd, _ =>
        let gradX : ℤ := min (grey : ℤ) (gd.width - 1)
        let gradIdx := gradX * 4
        ⟨jsArrGet gd.data gradIdx, jsArrGet gd.data (gradIdx + 1),
         jsArrGet gd.data (gradIdx + 2), p.a⟩
      | none, some c =>
        let t : ℚ := (grey : ℚ) / 255
        ⟨tintChannel c.r t, tintChannel c.g t, tintChannel c.b t, p.a⟩
      | none, none => ⟨grey, grey, grey, p.a⟩
    else p
  else p

/-- The whole-canvas tint loop (stride-4 walk over `imageData.data` =
per-pixel map). -/
def tintImage (gd : Option GradientData) (color : Option RGBo) (img : Image) :
    Image :=
  { img with pixels := img.pixels.map (tintPixel gd color) }

/-- `this.textureCache.get(path)` (`Map` keyed by the original request
path). -/
def cacheLookup (cache : List (String × Image)) (p : String) : Option Image :=
  (cache.find? (fun e => e.1 == p)).map (·.2)

/-- Replace the first occurrence of `pat` (char-list form). -/
def replaceFirstChars (pat rep : List Char) : List Char → List Char
  | [] => []
  | c :: cs =>
    if charsStartsWith (c :: cs) pat then rep ++ List.drop pat.length (c :: cs)
    else c :: replaceFirstChars pat rep cs

/-- JS `String.prototype.replace` with a plain-string pattern: replaces the
first occurrence only. -/
def replaceFirst (s pat rep : String) : String :=
  ⟨replaceFirstChars pat.toList rep.toList s.toList⟩

/-- The candidate request paths of `_loadTexture` (avatar.js lines
443-448). -/
def pathsToTry (path : String) : List String :=
  [if startsWithJS path "Common/" then "/asset/" ++ path else "/asset/Common/" ++ path,
   "/asset/" ++ path,
   "/asset/" ++ replaceFirst path "Common/" "",
   "/asset/Common/" ++ replaceFirst path "Common/" ""]

/-- `[...new Set(paths)]`: dedupe keeping first occurrences. -/
def dedupFirst (l : List String) : List String :=
  l.foldl (fun acc x => if x ∈ acc then acc else acc ++ [x]) []

/-- First candidate the texture loader resolves; `fs` maps a request path to
the image a successful load decodes (`none` = load error). -/
def firstHit (fs : String → Option Image) : List String → Option Image
  | [] => none
  | p :: ps =>
    match fs p with
    | some img => some img
    | none => firstHit fs ps

/-- `_loadTexture(path)` (avatar.js lines 439-484): answer from the cache,
keyed by the original `path`; otherwise try the deduplicated path variants
in order and cache a successful load under `path`.  Returns the texture and
the updated cache. -/
def _loadTexture (fs : String → Option Image) (cache : List (String × Image))
    (path : String) : Option Image × List (String × Image) :=
  match cacheLookup cache path with
  | some img => (some img, cache)
  | none =>
    match firstHit fs (dedupFirst (pathsToTry path)) with
    | some img => (some img, cache ++ [(path, img)])
    | none => (none, cache)

/-- `_loadGradientData(path)` (avatar.js lines 497-513): load the gradient
texture through the same cache and expose its ImageData; `null` path or a
failed load yield `null`. -/
def _loadGradientData (fs : String → Option Image) (cache : List (String × Image)) :
    Option String → Option GradientData × List (String × Image)
  | none => (none, cache)
  | some p =>
    match _loadTexture fs cache p with
    | (some img, c) => (some ⟨(img.width : ℤ), imageDataArray img⟩, c)
    | (none, c) => (none, c)

/-- `_createTintedTexture(greyscalePath, baseColor, gradientTexturePath)`
(avatar.js lines 515-569): load the greyscale source (cached by path), load
the gradient data, parse the base color, tint every pixel of a canvas copy.
The tinted canvas texture is returned but never stored in
`this.textureCache`. -/
def _createTintedTexture (fs : String → Option Image) (cache : List (String × Image))
    (greyscalePath : String) (baseColor : JSColor)
    (gradientTexturePath : Option String) : Option Image × List (String × Image) :=
  match _loadTexture fs cache greyscalePath with
  | (none, c1) => (none, c1)
  | (some img, c1) =>
    let gd := _loadGradientData fs c1 gradientTexturePath
    (some (tintImage gd.1 (some (_parseColor baseColor)) img), gd.2)

/-- Rounding commutes with the 255 clamp: clamping before rounding (as the
code does) equals rounding then clamping (as the claim states). -/
theorem jsRound_min_255 (x : ℚ) :
    jsRound (min 255 x) = min 255 (jsRound x) := by
  unfold jsRound
  rcases le_total x 255 with h | h
  · rw [min_eq_right h]
    have h2 : ⌊x + 1 / 2⌋ ≤ 255 := by
      have h3 : ⌊x + 1 / 2⌋ < 256 := Int.floor_lt.mpr (by push_cast; linarith)
      omega
    rw [min_eq_right h2]
  · rw [min_eq_left h]
    have h2 : (255 : ℤ) ≤ ⌊x + 1 / 2⌋ := Int.le_floor.mpr (by push_cast; linarith)
    rw [min_eq_left h2]
    rw [Int.floor_eq_iff]
    norm_num

/-- The flat-color tint channel in the claim's shape: clamp outside the
rounding, `channel × 2 × grey/255`. -/
theorem tintChannel_spec (v g : ℕ) :
    tintChannel (some v) ((g : ℚ) / 255)
      = (min 255 (jsRound ((v : ℚ) * 2 * ((g : ℚ) / 255)))).toNat := by
  unfold tintChannel
  dsimp only
  rw [show (v : ℚ) * ((g : ℚ) / 255) * 2 = (v : ℚ) * 2 * ((g : ℚ) / 255) by ring]
  rw [jsRound_min_255]

/-- C7 counterexample: with neither a gradient nor a supplied base color the
grey value does not pass through — `_parseColor` defaults to (200, 200, 200)
and the flat-color formula rescales grey 128 to 201. -/
theorem c7_counterexample :
    tintPixel none (some (_parseColor JSColor.other)) ⟨128, 128, 128, 255⟩
      = ⟨201, 201, 201, 255⟩
    ∧ (⟨201, 201, 201, 255⟩ : Pixel) ≠ (⟨128, 128, 128, 255⟩ : Pixel) := by
  constructor
  · have h201 : tintChannel (some 200) (((128 : ℕ) : ℚ) / 255) = 201 := by
      unfold tintChannel jsRound
      dsimp only
      rw [min_eq_right (by push_cast; norm_num :
            ((200 : ℕ) : ℚ) * (((128 : ℕ) : ℚ) / 255) * 2 ≤ 255)]
      rw [show (⌊((200 : ℕ) : ℚ) * (((128 : ℕ) : ℚ) / 255) * 2 + 1 / 2⌋ : ℤ) = 201 by
            rw [Int.floor_eq_iff]; push_cast; norm_num]
      rfl
    show tintPixel none (some ⟨some 200, some 200, some 200⟩) ⟨128, 128, 128, 255⟩ = _
    unfold tintPixel
    rw [if_pos (by norm_num : 0 < (Pixel.mk 128 128 128 255).a),
        if_pos ⟨rfl, rfl⟩]
    dsimp only
    rw [h201]
  · decide

/-- C7 as amended: tinting rewrites exactly the nonzero-alpha grayscale
pixels — via the gradient column `min(grey, width − 1)` when gradient data
is present, else via `min(255, round(channel × 2 × grey/255))` on the
parsed base color; when neither a gradient nor a base color is supplied the
parsed color defaults to (200, 200, 200) and the same flat formula applies
(grey does not pass through); transparent or non-grayscale pixels keep
their RGB. -/
theorem c7_amended (gd : Option GradientData) (bc : JSColor) (p : Pixel) :
    (p.a = 0 → tintPixel gd (some (_parseColor bc)) p = p)
    ∧ (¬(p.r = p.g ∧ p.g = p.b) → tintPixel gd (some (_parseColor bc)) p = p)
    ∧ (∀ gdata : GradientData, 0 < p.a → p.r = p.g → p.g = p.b → gd = some gdata →
        tintPixel gd (some (_parseColor bc)) p
          = ⟨jsArrGet gdata.data (min (p.r : ℤ) (gdata.width - 1) * 4),
             jsArrGet gdata.data (min (p.r : ℤ) (gdata.width - 1) * 4 + 1),
             jsArrGet gdata.data (min (p.r : ℤ) (gdata.width - 1) * 4 + 2), p.a⟩)
    ∧ (∀ cr cg cb : ℕ, 0 < p.a → p.r = p.g → p.g = p.b → gd = none →
        _parseColor bc = ⟨some cr, some cg, some cb⟩ →
        tintPixel gd (some (_parseColor bc)) p
          = ⟨(min 255 (jsRound ((cr : ℚ) * 2 * ((p.r : ℚ) / 255)))).toNat,
             (min 255 (jsRound ((cg : ℚ) * 2 * ((p.r : ℚ) / 255)))).toNat,
             (min 255 (jsRound ((cb : ℚ) * 2 * ((p.r : ℚ) / 255)))).toNat, p.a⟩)
    ∧ _parseColor JSColor.other = ⟨some 200, some 200, some 200⟩ := by
  refine ⟨?_, ?_, ?_, ?_, rfl⟩
  · intro ha
    unfold tintPixel
    rw [ha]
    rw [if_neg (by norm_num : ¬ (0 : ℕ) < 0)]
  · intro hng
    unfold tintPixel
    by_cases ha : 0 < p.a
    · rw [if_pos ha, if_neg hng]
    · rw [if_neg ha]
  · intro gdata ha h1 h2 hgd
    subst hgd
    unfold tintPixel
    rw [if_pos ha, if_pos ⟨h1, h2⟩]
  · intro cr cg cb ha h1 h2 hgd hpc
    subst hgd
    unfold tintPixel
    rw [if_pos ha, if_pos ⟨h1, h2⟩, hpc]
    dsimp only
    rw [tintChannel_spec, tintChannel_spec, tintChannel_spec]

/-- Witness for C7 (amended) at the default-color grey pixel. -/
theorem c7_witness :
    tintPixel none (some (_parseColor (JSColor.num 0xff0000))) ⟨128, 128, 128, 255⟩
      = ⟨(min 255 (jsRound ((255 : ℚ) * 2 * (((128 : ℕ) : ℚ) / 255)))).toNat,
         (min 255 (jsRound ((0 : ℚ) * 2 * (((128 : ℕ) : ℚ) / 255)))).toNat,
         (min 255 (jsRound ((0 : ℚ) * 2 * (((128 : ℕ) : ℚ) / 255)))).toNat, 255⟩ :=
  ((c7_amended none (JSColor.num 0xff0000) ⟨128, 128, 128, 255⟩).2.2.2.1)
    255 0 0 (by decide) rfl rfl rfl (by decide)

/-- The 1×1 greyscale source image used by the C2 theorems. -/
def greyImg : Image := ⟨1, 1, [⟨128, 128, 128, 255⟩]⟩

/-- A texture store that resolves only `/asset/Common/g.png`. -/
def fsOne : String → Option Image :=
  fun p => if p = "/asset/Common/g.png" then some greyImg else none

/-- C2 counterexample: two `_createTintedTexture` requests for the same
greyscale path with different base colors do **not** share a result — the
second (blue) request returns a blue-tinted texture, not the red-tinted
result of the first request.  Only the untinted source image is cached. -/
theorem c2_counterexample :
    (_createTintedTexture fsOne
        (_createTintedTexture fsOne [] "g.png" (JSColor.str "#ff0000") none).2
        "g.png" (JSColor.str "#0000ff") none).1
      ≠ (_createTintedTexture fsOne [] "g.png" (JSColor.str "#ff0000") none).1 := by
  have h255 : tintChannel (some 255) (((128 : ℕ) : ℚ) / 255) = 255 := by
    unfold tintChannel jsRound
    dsimp only
    rw [min_eq_left (by push_cast; norm_num :
          (255 : ℚ) ≤ ((255 : ℕ) : ℚ) * (((128 : ℕ) : ℚ) / 255) * 2)]
    rw [show (⌊(255 : ℚ) + 1 / 2⌋ : ℤ) = 255 by rw [Int.floor_eq_iff]; norm_num]
    rfl
  have h0 : tintChannel (some 0) (((128 : ℕ) : ℚ) / 255) = 0 := by
    unfold tintChannel jsRound
    dsimp only
    rw [show ((0 : ℕ) : ℚ) * (((128 : ℕ) : ℚ) / 255) * 2 = 0 by push_cast; ring]
    rw [show (min (255 : ℚ) 0) = 0 by norm_num]
    rw [show (⌊(0 : ℚ) + 1 / 2⌋ : ℤ) = 0 by rw [Int.floor_eq_iff]; norm_num]
    rfl
  have hload : _loadTexture fsOne [] "g.png" = (some greyImg, [("g.png", greyImg)]) := by
    decide
  have hcl : cacheLookup [("g.png", greyImg)] "g.png" = some greyImg := by decide
  have hpixr : tintPixel none (some (_parseColor (JSColor.str "#ff0000")))
      ⟨128, 128, 128, 255⟩ = ⟨255, 0, 0, 255⟩ := by
    rw [show _parseColor (JSColor.str "#ff0000") = ⟨some 255, some 0, some 0⟩ by decide]
    unfold tintPixel
    rw [if_pos (by norm_num : 0 < (Pixel.mk 128 128 128 255).a), if_pos ⟨rfl, rfl⟩]
    dsimp only
    rw [h255, h0]
  have hpixb : tintPixel none (some (_parseColor (JSColor.str "#0000ff")))
      ⟨128, 128, 128, 255⟩ = ⟨0, 0, 255, 255⟩ := by
    rw [show _parseColor (JSColor.str "#0000ff") = ⟨some 0, some 0, some 255⟩ by decide]
    unfold tintPixel
    rw [if_pos (by norm_num : 0 < (Pixel.mk 128 128 128 255).a), if_pos ⟨rfl, rfl⟩]
    dsimp only
    rw [h255, h0]
  have call1 : _createTintedTexture fsOne [] "g.png" (JSColor.str "#ff0000") none
      = (some ⟨1, 1, [⟨255, 0, 0, 255⟩]⟩, [("g.png", greyImg)]) := by
    unfold _createTintedTexture
    rw [hload]
    dsimp only [_loadGradientData]
    unfold tintImage greyImg
    dsimp only [List.map]
    rw [hpixr]
  have call2 : _createTintedTexture fsOne [("g.png", greyImg)] "g.png"
        (JSColor.str "#0000ff") none
      = (some ⟨1, 1, [⟨0, 0, 255, 255⟩]⟩, [("g.png", greyImg)]) := by
    unfold _createTintedTexture _loadTexture
    rw [hcl]
    dsimp only [_loadGradientData]
    unfold tintImage greyImg
    dsimp only [List.map]
    rw [hpixb]
  rw [call1, call2]
  decide

/-- C2 as amended: the cache is keyed only by source path and holds only the
untinted source image — a request whose source is already cached re-tints
that cached source with its **own** base color and gradient (so two requests
with different tint parameters get different results), and the tinted output
is never written back to the cache. -/
theorem c2_amended (fs : String → Option Image) (cache : List (String × Image))
    (path : String) (bc : JSColor) (gpath : Option String) (img : Image)
    (h : cacheLookup cache path = some img) :
    (_createTintedTexture fs cache path bc gpath).1
      = some (tintImage (_loadGradientData fs cache gpath).1
          (some (_parseColor bc)) img)
    ∧ (_createTintedTexture fs cache path bc gpath).2
      = (_loadGradientData fs cache gpath).2 := by
  unfold _createTintedTexture _loadTexture
  rw [h]
  exact ⟨rfl, rfl⟩

/-- Witness for C2 (amended) on the cached 1×1 source. -/
theorem c2_witness :
    (_createTintedTexture (fun _ => none) [("g.png", greyImg)] "g.png"
        (JSColor.num 0) none).1
      = some (tintImage (_loadGradientData (fun _ => none) [("g.png", greyImg)] none).1
          (some (_parseColor (JSColor.num 0))) greyImg)
    ∧ (_createTintedTexture (fun _ => none) [("g.png", greyImg)] "g.png"
        (JSColor.num 0) none).2
      = (_loadGradientData (fun _ => none) [("g.png", greyImg)] none).2 :=
  c2_amended (fun _ => none) [("g.png", greyImg)] "g.png" (JSColor.num 0) none greyImg
    (by decide)

/-! ### UV layout resolution -/

/-- The four UV pairs written to a face's vertex slots, in the
bottom-left / bottom-right / top-left / top-right order used by both
`THREE.BoxGeometry` faces and `THREE.PlaneGeometry`. -/
structure UVCorners where
  bl : ℚ × ℚ
  br : ℚ × ℚ
  tl : ℚ × ℚ
  tr : ℚ × ℚ
deriving DecidableEq, Repr

/-- The `switch (angle)` block computing the opposite-corner pixel rectangle
`result` from face size, mirror flags and atlas offset — textually identical
in `_createBoxMesh` (avatar.js lines 991-1037) and `_createQuadMesh` (lines
1184-1227).  For 90°/270° size and mirror swap and one mirror sign flips;
for 180° both mirror signs flip. -/
def computeUVResult (sizeX sizeY : ℚ) (mirX mirY : Bool) (offX offY : ℚ)
    (angle : ℕ) : ℚ × ℚ × ℚ × ℚ :=
  let m0 : ℚ := if mirX then -1 else 1
  let m1 : ℚ := if mirY then -1 else 1
  if angle = 90 then
    let s0 := sizeY
    let s1 := sizeX
    let n0 := m1 * -1
    let n1 := m0
    (offX, offY + s1 * n1, offX + s0 * n0, offY)
  else if angle = 180 then
    let n0 := m0 * -1
    let n1 := m1 * -1
    (offX + sizeX * n0, offY + sizeY * n1, offX, offY)
  else if angle = 270 then
    let s0 := sizeY
    let s1 := sizeX
    let n0 := m1
    let n1 := m0 * -1
    (offX + s0 * n0, offY, offX, offY + s1 * n1)
  else
    (offX, offY, offX + sizeX * m0, offY + sizeY * m1)

/-- Pixel rectangle → normalized UV with vertical flip
(`u = x/texW`, `v = 1 − y/texH`), then the fixed per-angle assignment of
`(u1,v1,u2,v2)` to the four vertex slots — again identical in
`_createBoxMesh` (lines 1040-1074) and `_createQuadMesh` (lines
1229-1265). -/
def resolveFaceUV (sizeX sizeY offX offY : ℚ) (angle : ℕ)
    (mirX mirY : Bool) (texW texH : ℚ) : UVCorners :=
  let r := computeUVResult sizeX sizeY mirX mirY offX offY angle
  let u1 := r.1 / texW
  let v1 := 1 - r.2.1 / texH
  let u2 := r.2.2.1 / texW
  let v2 := 1 - r.2.2.2 / texH
  if angle = 90 then ⟨(u1, v2), (u1, v1), (u2, v2), (u2, v1)⟩
  else if angle = 180 then ⟨(u2, v2), (u1, v2), (u2, v1), (u1, v1)⟩
  else if angle = 270 then ⟨(u2, v1), (u2, v2), (u1, v1), (u1, v2)⟩
  else ⟨(u1, v1), (u2, v1), (u1, v2), (u2, v2)⟩

/-- C8: at angle 0 with both mirror flags off, UV resolution yields the raw
offset/size rectangle in normalized coordinates with vertical flip, assigned
to the bottom-left/bottom-right/top-left/top-right slots without
permutation. -/
theorem c8_angle0_uv (sizeX sizeY offX offY texW texH : ℚ) :
    resolveFaceUV sizeX sizeY offX offY 0 false false texW texH
      = ⟨(offX / texW, 1 - offY / texH),
         ((offX + sizeX) / texW, 1 - offY / texH),
         (offX / texW, 1 - (offY + sizeY) / texH),
         ((offX + sizeX) / texW, 1 - (offY + sizeY) / texH)⟩ := by
  unfold resolveFaceUV computeUVResult
  norm_num

/-! ### Model nodes and cosmetic attachment -/

/-- A JSON vector whose fields may be absent. -/
structure OVec3 where
  x : Option ℚ
  y : Option ℚ
  z : Option ℚ
deriving DecidableEq, Repr

/-- A JSON quaternion whose fields may be absent. -/
structure OQuat where
  x : Option ℚ
  y : Option ℚ
  z : Option ℚ
  w : Option ℚ
deriving DecidableEq, Repr

/-- The shape data the renderers read: `type`, the `visible` flag, the
authored `offset`, and whether `settings.size` is present (without it
`_createBoxMesh`/`_createQuadMesh` return null and no mesh is attached). -/
structure Shape where
  type : String
  visible : Option Bool
  offset : Option OVec3
  hasSettingsSize : Bool
deriving DecidableEq, Repr

/-- A node of a `.blockymodel` document: optional `name`/`id`, optional
transform fields, optional shape, ordered children. -/
inductive ModelNode : Type where
  | node (name : Option String) (id : Option String) (position : Option OVec3)
      (orientation : Option OQuat) (shape : Option Shape)
      (children : List ModelNode)
deriving Repr

/-- Authored `name` field. -/
def ModelNode.name : ModelNode → Option String
  | .node n _ _ _ _ _ => n

/-- Authored `id` field. -/
def ModelNode.idField : ModelNode → Option String
  | .node _ i _ _ _ _ => i

/-- Authored `position` field. -/
def ModelNode.position : ModelNode → Option OVec3
  | .node _ _ p _ _ _ => p

/-- Authored `orientation` field. -/
def ModelNode.orientation : ModelNode → Option OQuat
  | .node _ _ _ o _ _ => o

/-- Authored `shape` field. -/
def ModelNode.shape : ModelNode → Option Shape
  | .node _ _ _ _ s _ => s

/-- Child list. -/
def ModelNode.children : ModelNode → List ModelNode
  | .node _ _ _ _ _ cs => cs

/-- `const nodeName = node.name || node.id || ''` (empty string falsy). -/
def nodeNameOf (n : ModelNode) : String :=
  strOrDefault n.name (strOrDefault n.idField "")

/-- Group quaternion from an authored orientation:
`group.quaternion.set(x ?? 0, y ?? 0, z ?? 0, w ?? 1)` when present, the
fresh group's identity quaternion otherwise. -/
def quatOfOrientation : Option OQuat → Quat
  | some o => ⟨o.x.getD 0, o.y.getD 0, o.z.getD 0, o.w.getD 1⟩
  | none => ⟨0, 0, 0, 1⟩

/-- `(node.position?.c || 0)` for the three components. -/
def ovec3OrZero : Option OVec3 → Vec3
  | some v => ⟨v.x.getD 0, v.y.getD 0, v.z.getD 0⟩
  | none => ⟨0, 0, 0⟩

/-- `v.applyQuaternion(q)` (THREE.Vector3.applyQuaternion):
`t = 2 · (q.xyz × v)`, result `v + q.w · t + q.xyz × t`. -/
def applyQuaternion (v : Vec3) (q : Quat) : Vec3 :=
  let tx := 2 * (q.y * v.z - q.z * v.y)
  let ty := 2 * (q.z * v.x - q.x * v.z)
  let tz := 2 * (q.x * v.y - q.y * v.x)
  ⟨v.x + q.w * tx + (q.y * tz - q.z * ty),
   v.y + q.w * ty + (q.z * tx - q.x * tz),
   v.z + q.w * tz + (q.x * ty - q.y * tx)⟩

/-- `_applyTransform(group, node)` (avatar.js lines 905-932): orientation
with `?? 0/1` defaults; position = authored position × SCALE plus the shape
offset rotated by the group quaternion and scaled. -/
def _applyTransform (node : ModelNode) : Vec3 × Quat :=
  let q := quatOfOrientation node.orientation
  let p0 := ovec3OrZero node.position
  let base : Vec3 := ⟨p0.x * SCALE, p0.y * SCALE, p0.z * SCALE⟩
  let pos :=
    match node.shape with
    | some sh =>
      match sh.offset with
      | some off =>
        let o0 : Vec3 := ⟨off.x.getD 0 * SCALE, off.y.getD 0 * SCALE, off.z.getD 0 * SCALE⟩
        vadd base (applyQuaternion o0 q)
      | none => base
    | none => base
  (pos, q)

/-- Whether `_renderCosmeticNode` attaches a visible mesh for this node
(avatar.js lines 861-888: shape present, `visible !== false`,
`type !== 'none'`, a box/quad branch taken, and `settings.size` present so
the mesh constructor does not bail out). -/
def cosmeticHasMesh (node : ModelNode) : Bool :=
  match node.shape with
  | some sh =>
    decide (sh.visible ≠ some false) && decide (sh.type ≠ "none")
      && (decide (sh.type = "box") || decide (sh.type = "quad"))
      && sh.hasSettingsSize
  | none => false

/-- Number of children of the object at `path` (used for the index a
`THREE.Object3D.add` append lands at). -/
def childCountAt (o : SceneObj) (p : List ℕ) : ℕ :=
  match getAt o p with
  | some c => c.children.length
  | none => 0

mutual

/-- `_renderCosmeticNode(node, parent, color, partType, texture, zOffset,
depth, shadowTexture)` (avatar.js lines 811-903), over the character tree
with the parent given as a path.  A node whose non-empty name matches a
character object (first preorder hit) re-parents onto that bone and takes
only its authored orientation with position `(0,0,0)`; otherwise
`_applyTransform` applies the authored transform.  A truthy `zOffset` then
shifts `group.position.z`; the group (named `name + "_cosmetic"`) is
appended to its target parent; finally the children recurse — a child whose
name matches a bone is rendered against that bone with the **current**
`zOffset`, all others recurse under the fresh group with `zOffset` 0. -/
def _renderCosmeticNode : ModelNode → List ℕ → ℚ → SceneObj → SceneObj
  | .node nm idv pos ornt shp children, parentPath, zOffset, char =>
    let node : ModelNode := .node nm idv pos ornt shp children
    let nodeName := nodeNameOf node
    let matching := if nodeName ≠ "" then findPathByName char nodeName else none
    let targetPath := match matching with | some p => p | none => parentPath
    let attached := matching.isSome
    let gpq : Vec3 × Quat :=
      if attached then (⟨0, 0, 0⟩, quatOfOrientation ornt)
      else _applyTransform node
    let gpos := if zOffset ≠ 0 then ⟨gpq.1.x, gpq.1.y, gpq.1.z + zOffset⟩ else gpq.1
    let group : SceneObj :=
      .node (nodeName ++ "_cosmetic") gpos gpq.2 (cosmeticHasMesh node) []
    let n0 := childCountAt char targetPath
    let char1 := addChildAt char targetPath group
    renderCosmeticChildren children (targetPath ++ [n0]) zOffset char1

/-- The child loop at the end of `_renderCosmeticNode` (avatar.js lines
892-902). -/
def renderCosmeticChildren : List ModelNode → List ℕ → ℚ → SceneObj → SceneObj
  | [], _, _, char => char
  | c :: cs, groupPath, zOffset, char =>
    let childName := nodeNameOf c
    let childBone := if childName ≠ "" then findPathByName char childName else none
    let char' :=
      match childBone with
      | some bp => _renderCosmeticNode c bp zOffset char
      | none => _renderCosmeticNode c groupPath 0 char
    renderCosmeticChildren cs groupPath zOffset char'

end

/-- `_renderCosmeticModel(model.nodes, this.character, ...)` (avatar.js
lines 795-800): render every top-level node against the character root. -/
def _renderCosmeticModel (nodes : List ModelNode) (zOffset : ℚ)
    (char : SceneObj) : SceneObj :=
  nodes.foldl (fun c n => _renderCosmeticNode n [] zOffset c) char

/-- Appending an element and then reading any index of the original range
gives the original element. -/
theorem get?_append_left_aux {α : Type} :
    ∀ (l1 l2 : List α) (n : ℕ) (a : α), l1.get? n = some a → (l1 ++ l2).get? n = some a := by
  intro l1
  induction l1 with
  | nil => intro l2 n a h; simp at h
  | cons x xs ih =>
    intro l2 n a h
    cases n with
    | zero => simp only [List.cons_append, List.get?]; simpa using h
    | succ n => exact ih l2 n a (by simpa using h)

/-- Reading the appended slot gives the new element. -/
theorem get?_concat_len_aux {α : Type} :
    ∀ (l : List α) (a : α), (l ++ [a]).get? l.length = some a := by
  intro l
  induction l with
  | nil => intro a; rfl
  | cons x xs ih =>
    intro a
    simp only [List.cons_append, List.length_cons, List.get?]
    exact ih a

/-- Index view of `addChildInList`: only the `i`-th element changes. -/
theorem addChildInList_get (g : SceneObj) (p : List ℕ) :
    ∀ (cs : List SceneObj) (i j : ℕ),
      (addChildInList cs i p g).get? j
        = if j = i then (cs.get? j).map (fun c => addChildAt c p g) else cs.get? j := by
  intro cs
  induction cs with
  | nil =>
    intro i j
    cases i <;> simp [addChildInList]
  | cons c cs ih =>
    intro i j
    cases i with
    | zero =>
      cases j with
      | zero => simp [addChildInList]
      | succ j => simp [addChildInList]
    | succ i =>
      cases j with
      | zero => simp [addChildInList]
      | succ j => simpa [addChildInList] using ih i j

/-- `addChildAt` preserves every object reachable in the original tree:
same path, same name/position/quaternion/mesh data. -/
theorem getAt_addChildAt_headData :
    ∀ (q : List ℕ) (c : SceneObj) (p : List ℕ) (g : SceneObj) (o : SceneObj),
      getAt c q = some o →
      ∃ o', getAt (addChildAt c p g) q = some o' ∧ o'.headData = o.headData := by
  intro q
  induction q with
  | nil =>
    intro c p g o h
    cases c with
    | node nm pos qu m cs =>
      injection h with h'
      cases p with
      | nil => exact ⟨_, rfl, by rw [← h']; rfl⟩
      | cons i p' => exact ⟨_, rfl, by rw [← h']; rfl⟩
  | cons j q' ih =>
    intro c p g o h
    cases c with
    | node nm pos qu m cs =>
      simp only [getAt, SceneObj.children] at h
      cases hj : cs.get? j with
      | none => rw [hj] at h; exact absurd h (by simp)
      | some cj =>
        rw [hj] at h
        cases p with
        | nil =>
          refine ⟨o, ?_, rfl⟩
          simp only [addChildAt, getAt, SceneObj.children]
          rw [get?_append_left_aux cs [g] j cj hj]
          exact h
        | cons i p' =>
          simp only [addChildAt, getAt, SceneObj.children]
          rw [addChildInList_get]
          by_cases hji : j = i
          · subst hji
            rw [if_pos rfl, hj]
            exact ih cj p' g o h
          · rw [if_neg hji, hj]
            exact ⟨o, h, rfl⟩

/-- The appended group is reachable at the target path extended by the old
child count. -/
theorem getAt_addChildAt_new :
    ∀ (p : List ℕ) (c : SceneObj) (g : SceneObj) (o : SceneObj),
      getAt c p = some o →
      getAt (addChildAt c p g) (p ++ [o.children.length]) = some g := by
  intro p
  induction p with
  | nil =>
    intro c g o h
    cases c with
    | node nm pos qu m cs =>
      injection h with h'
      subst h'
      simp only [addChildAt, getAt, SceneObj.children, List.nil_append]
      rw [get?_concat_len_aux cs g]
  | cons i p' ih =>
    intro c g o h
    cases c with
    | node nm pos qu m cs =>
      simp only [getAt, SceneObj.children] at h
      cases hj : cs.get? i with
      | none => rw [hj] at h; exact absurd h (by simp)
      | some ci =>
        rw [hj] at h
        simp only [addChildAt, getAt, SceneObj.children, List.cons_append]
        rw [addChildInList_get, if_pos rfl, hj]
        exact ih ci g o h

/-- Decomposition of a successful child-list name scan: the result is an
absolute child index at least the running index, pointing at a child whose
subtree search succeeds. -/
theorem findPathInChildren_getAt :
    ∀ (cs : List SceneObj) (n : String) (i : ℕ) (p : List ℕ),
      findPathInChildren cs n i = some p →
      ∃ j q, p = j :: q ∧ i ≤ j ∧
        ∃ cj, cs.get? (j - i) = some cj ∧ findPathByName cj n = some q := by
  intro cs
  induction cs with
  | nil => intro n i p h; simp [findPathInChildren] at h
  | cons c cs ih =>
    intro n i p h
    simp only [findPathInChildren] at h
    cases hc : findPathByName c n with
    | some q0 =>
      rw [hc] at h
      injection h with h'
      exact ⟨i, q0, h'.symm, le_refl i, c, by simp, hc⟩
    | none =>
      rw [hc] at h
      obtain ⟨j, q, hp, hij, cj, hcj, hfind⟩ := ih n (i + 1) p h
      refine ⟨j, q, hp, by omega, cj, ?_, hfind⟩
      have hsub : j - i = (j - (i + 1)) + 1 := by omega
      rw [hsub]
      simpa using hcj

/-- Bounded-size version of: a successful name search addresses an object
carrying that name. -/
theorem findPathByName_getAt_aux :
    ∀ (k : ℕ) (c : SceneObj), sizeOf c ≤ k → ∀ (n : String) (p : List ℕ),
      findPathByName c n = some p → ∃ o, getAt c p = some o ∧ o.name = n := by
  intro k
  induction k with
  | zero =>
    intro c hc
    cases c with
    | node nm pos qu m cs =>
      simp only [SceneObj.node.sizeOf_spec] at hc
      omega
  | succ k ih =>
    intro c hc n p h
    cases c with
    | node nm pos qu m cs =>
      simp only [findPathByName] at h
      by_cases hn : nm = n
      · rw [if_pos hn] at h
        injection h with h'
        subst h'
        exact ⟨_, rfl, hn⟩
      · rw [if_neg hn] at h
        obtain ⟨j, q, hp, _, cj, hcj, hfind⟩ := findPathInChildren_getAt cs n 0 p h
        subst hp
        have hj : cs.get? j = some cj := by simpa using hcj
        have hsz : sizeOf cj ≤ k := by
          have h1 := List.sizeOf_lt_of_mem (List.get?_mem hj)
          simp only [SceneObj.node.sizeOf_spec] at hc
          omega
        obtain ⟨o, ho, hname⟩ := ih cj hsz n q hfind
        refine ⟨o, ?_, hname⟩
        simp only [getAt, SceneObj.children]
        rw [hj]
        exact ho

/-- A successful name search addresses an object carrying that name. -/
theorem findPathByName_getAt (c : SceneObj) (n : String) (p : List ℕ)
    (h : findPathByName c n = some p) : ∃ o, getAt c p = some o ∧ o.name = n :=
  findPathByName_getAt_aux (sizeOf c) c (le_refl _) n p h

/-- Bounded-size version of: cosmetic rendering only appends groups, so
every object of the original character keeps its path and its
name/position/quaternion/mesh data. -/
theorem render_preserves_aux :
    ∀ (k : ℕ),
      (∀ (node : ModelNode), sizeOf node ≤ k →
        ∀ (pp : List ℕ) (z : ℚ) (char : SceneObj) (q : List ℕ) (o : SceneObj),
          getAt char q = some o →
          ∃ o', getAt (_renderCosmeticNode node pp z char) q = some o'
            ∧ o'.headData = o.headData)
      ∧ (∀ (cs : List ModelNode), sizeOf cs ≤ k →
        ∀ (gp : List ℕ) (z : ℚ) (char : SceneObj) (q : List ℕ) (o : SceneObj),
          getAt char q = some o →
          ∃ o', getAt (renderCosmeticChildren cs gp z char) q = some o'
            ∧ o'.headData = o.headData) := by
  intro k
  induction k with
  | zero =>
    constructor
    · intro node hn
      cases node with
      | node nm idv pos ornt shp children =>
        simp only [ModelNode.node.sizeOf_spec] at hn
        omega
    · intro cs hsz
      cases cs with
      | nil =>
        simp only [List.nil.sizeOf_spec] at hsz
        omega
      | cons c cs' =>
        simp only [List.cons.sizeOf_spec] at hsz
        omega
  | succ k ih =>
    constructor
    · intro node hn pp z char q o hq
      cases node with
      | node nm idv pos ornt shp children =>
        have hcs : sizeOf children ≤ k := by
          simp only [ModelNode.node.sizeOf_spec] at hn
          omega
        simp only [_renderCosmeticNode]
        have step : ∀ (gp tp : List ℕ) (g : SceneObj),
            ∃ o', getAt (renderCosmeticChildren children gp z (addChildAt char tp g)) q
              = some o' ∧ o'.headData = o.headData := by
          intro gp tp g
          obtain ⟨o1, h1, e1⟩ := getAt_addChildAt_headData q char tp g o hq
          obtain ⟨o2, h2, e2⟩ := ih.2 children hcs gp z (addChildAt char tp g) q o1 h1
          exact ⟨o2, h2, by rw [e2, e1]⟩
        exact step _ _ _
    · intro cs hsz gp z char q o hq
      cases cs with
      | nil =>
        simp only [renderCosmeticChildren]
        exact ⟨o, hq, rfl⟩
      | cons c cs' =>
        have hc : sizeOf c ≤ k := by
          simp only [List.cons.sizeOf_spec] at hsz
          omega
        have hcs' : sizeOf cs' ≤ k := by
          simp only [List.cons.sizeOf_spec] at hsz
          omega
        simp only [renderCosmeticChildren]
        have hstep : ∀ (pp : List ℕ) (zz : ℚ),
            ∃ o', getAt (renderCosmeticChildren cs' gp z (_renderCosmeticNode c pp zz char)) q
              = some o' ∧ o'.headData = o.headData := by
          intro pp zz
          obtain ⟨o1, h1, e1⟩ := ih.1 c hc pp zz char q o hq
          obtain ⟨o2, h2, e2⟩ := ih.2 cs' hcs' gp z (_renderCosmeticNode c pp zz char) q o1 h1
          exact ⟨o2, h2, by rw [e2, e1]⟩
        cases hcb : (if nodeNameOf c ≠ "" then findPathByName char (nodeNameOf c) else none) with
        | some bp => exact hstep bp z
        | none => exact hstep gp 0

/-- Cosmetic rendering preserves every object of the input character. -/
theorem renderNode_preserves (node : ModelNode) (pp : List ℕ) (z : ℚ)
    (char : SceneObj) (q : List ℕ) (o : SceneObj) (h : getAt char q = some o) :
    ∃ o', getAt (_renderCosmeticNode node pp z char) q = some o'
      ∧ o'.headData = o.headData :=
  (render_preserves_aux (sizeOf node)).1 node (le_refl _) pp z char q o h

/-- The child loop of cosmetic rendering preserves every object of the
input character. -/
theorem renderChildren_preserves (cs : List ModelNode) (gp : List ℕ) (z : ℚ)
    (char : SceneObj) (q : List ℕ) (o : SceneObj) (h : getAt char q = some o) :
    ∃ o', getAt (renderCosmeticChildren cs gp z char) q = some o'
      ∧ o'.headData = o.headData :=
  (render_preserves_aux (sizeOf cs)).2 cs (le_refl _) gp z char q o h

/-- C5 as amended: a cosmetic node whose non-empty name matches a character
object attaches as a child of that object (which keeps its name), with its
quaternion taken from the node's authored orientation and its position
`(0,0,0)` plus — on the z axis — the z-offset **passed to that recursion
level**, never the node's authored position or shape offset.  (The slot's
declared z-offset reaches the node only while every enclosing recursion step
was bone-matched; a non-matched cosmetic parent resets the child offset to
0.) -/
theorem c5_amended (node : ModelNode) (parentPath : List ℕ) (z : ℚ)
    (char : SceneObj) (p : List ℕ)
    (hne : nodeNameOf node ≠ "")
    (hfind : findPathByName char (nodeNameOf node) = some p) :
    (∃ b, getAt (_renderCosmeticNode node parentPath z char) p = some b
       ∧ b.name = nodeNameOf node)
    ∧ (∃ o, getAt (_renderCosmeticNode node parentPath z char)
          (p ++ [childCountAt char p]) = some o
        ∧ o.name = nodeNameOf node ++ "_cosmetic"
        ∧ o.position = ⟨0, 0, z⟩
        ∧ o.quaternion = quatOfOrientation node.orientation) := by
  obtain ⟨bone, hbone, hbname⟩ := findPathByName_getAt char (nodeNameOf node) p hfind
  have hcount : childCountAt char p = bone.children.length := by
    unfold childCountAt
    rw [hbone]
  cases node with
  | node nm idv pos ornt shp children =>
    simp only [_renderCosmeticNode]
    rw [if_pos hne, hfind]
    simp only [Option.isSome_some, if_true]
    constructor
    · have key : ∀ (GP : List ℕ) (G : SceneObj),
          ∃ b, getAt (renderCosmeticChildren children GP z (addChildAt char p G)) p
            = some b ∧ b.name
              = nodeNameOf (ModelNode.node nm idv pos ornt shp children) := by
        intro GP G
        obtain ⟨o1, h1, e1⟩ := getAt_addChildAt_headData p char p G bone hbone
        obtain ⟨o2, h2, e2⟩ := renderChildren_preserves children GP z _ p o1 h1
        refine ⟨o2, h2, ?_⟩
        have e3 : o2.headData = bone.headData := by rw [e2, e1]
        have : o2.name = bone.name := congrArg (fun t => t.1) e3
        rw [this, hbname]
      exact key _ _
    · have key2 : ∀ (GP : List ℕ) (gname : String) (gpos : Vec3) (gquat : Quat)
          (gmesh : Bool),
          ∃ o, getAt (renderCosmeticChildren children GP z
              (addChildAt char p (.node gname gpos gquat gmesh [])))
              (p ++ [childCountAt char p]) = some o
            ∧ o.name = gname ∧ o.position = gpos ∧ o.quaternion = gquat := by
        intro GP gname gpos gquat gmesh
        have h1 := getAt_addChildAt_new p char (.node gname gpos gquat gmesh []) bone hbone
        rw [← hcount] at h1
        obtain ⟨o2, h2, e2⟩ := renderChildren_preserves children GP z _ _ _ h1
        refine ⟨o2, h2, ?_, ?_, ?_⟩
        · exact congrArg (fun t => t.1) e2
        · exact congrArg (fun t => t.2.1) e2
        · exact congrArg (fun t => t.2.2.1) e2
      obtain ⟨o, ho, hname, hpos, hquat⟩ := key2 _ _ _ _ _
      refine ⟨o, ho, hname, ?_, hquat⟩
      rw [hpos]
      rcases eq_or_ne z 0 with hz | hz
      · rw [hz]
        simp
      · rw [if_pos hz]
        simp

/-- The one-bone character used by the C5 theorems. -/
def chestChar : SceneObj :=
  .node "" ⟨0, 0, 0⟩ ⟨0, 0, 0, 1⟩ false
    [.node "Chest" ⟨0, 0, 0⟩ ⟨0, 0, 0, 1⟩ false []]

/-- The bone-named cosmetic node used by the C5 witness. -/
def chestCosmetic : ModelNode :=
  .node (some "Chest") none (some ⟨some 5, some 6, some 7⟩)
    (some ⟨some 1, some 0, some 0, some 0⟩) none []

/-- Witness for C5 (amended): a "Chest" cosmetic node against the one-bone
character, slot z-offset 2. -/
theorem c5_witness :
    (∃ b, getAt (_renderCosmeticNode chestCosmetic [] 2 chestChar) [0] = some b
       ∧ b.name = nodeNameOf chestCosmetic)
    ∧ (∃ o, getAt (_renderCosmeticNode chestCosmetic [] 2 chestChar)
          ([0] ++ [childCountAt chestChar [0]]) = some o
        ∧ o.name = nodeNameOf chestCosmetic ++ "_cosmetic"
        ∧ o.position = ⟨0, 0, 2⟩
        ∧ o.quaternion = quatOfOrientation chestCosmetic.orientation) :=
  c5_amended chestCosmetic [] 2 chestChar [0] (by decide)
    (by simp [chestChar, chestCosmetic, nodeNameOf, strOrDefault,
          ModelNode.name, ModelNode.idField, findPathByName, findPathInChildren])

/-- The cosmetic tree of the C5 counterexample: two non-matching decorative
levels above a bone-named grandchild. -/
def decorTree : ModelNode :=
  .node (some "Decor1") none none none none
    [.node (some "Decor2") none none none none
      [.node (some "Chest") none (some ⟨some 5, some 6, some 7⟩)
        (some ⟨some 1, some 0, some 0, some 0⟩) none []]]

/-- C5 counterexample: rendering `decorTree` with slot z-offset 2 attaches
the bone-matched "Chest" grandchild at position `(0,0,0)` — not
`(0,0,0)` plus the slot's declared z-offset on the z axis, as the claim
states — because the offset was reset to 0 at its non-matching parent. -/
theorem c5_counterexample :
    (getAt (_renderCosmeticNode decorTree [] 2 chestChar) [0, 0]).map SceneObj.position
      = some ⟨0, 0, 0⟩
    ∧ some (Vec3.mk 0 0 0) ≠ some (Vec3.mk 0 0 2) := by
  constructor
  · decide
  · decide

end Avatar
